import Mathlib

/-!
# Verification of the ColiVara ingestion and retrieval core

This file shallowly embeds the document-ingestion pipeline and the
multi-vector retrieval engine of the ColiVara repository
(`web/api/models.py`, `web/api/views.py`) and proves properties of the
embedding.  External effects (HTTP responses of the embedding service,
Gotenberg conversions, `pdf2image` rasterization, MIME sniffing) are
modelled as explicit inputs; database rows are modelled as lists.
Floating-point scores are modelled as rationals.
-/

namespace ColiVara

/-! ## Basic utilities -/

/-- Python `pat in s` substring test, on character lists. -/
def listContainsSub (l p : List Char) : Bool :=
  (List.range (l.length + 1)).any fun i => p.isPrefixOf (l.drop i)

/-- Python `pat in s` substring test for strings. -/
def strContainsSub (s pat : String) : Bool :=
  listContainsSub s.toList pat.toList

/-- Python `os.path.splitext` on a bare filename (no directory part):
leading dots do not start an extension; the extension is everything from
the last remaining dot on. -/
def splitExt (s : String) : String × String :=
  let cs := s.toList
  let lead := cs.takeWhile (fun c => c = '.')
  let rest := cs.drop lead.length
  let rev := rest.reverse
  let sufLen := (rev.takeWhile (fun c => c ≠ '.')).length
  if sufLen = rev.length then (s, "")
  else (String.mk (lead ++ (rev.drop (sufLen + 1)).reverse),
        String.mk ((rev.take (sufLen + 1)).reverse))

/-- Python `str.lstrip(".")`: drop every leading dot. -/
def lstripDot (s : String) : String :=
  String.mk (s.toList.dropWhile (fun c => c = '.'))

/-- Python `str.lower()`, character by character (extensionally
`String.toLower`, phrased so the kernel can evaluate it). -/
def strToLower (s : String) : String :=
  String.mk (s.toList.map Char.toLower)

/-! ## Retrieval engine: late-interaction (MaxSim) scoring

The raw score of a page is computed by the PostgreSQL aggregate
`max_sim` (`MaxSim` in `web/api/models.py`), whose SQL body is not part
of the source tree.  Its semantics are therefore modelled from the spec.
-/

/-- Maximum of a list of rationals (the true maximum for a nonempty
list; `0` only for the empty list, which the ingestion invariant rules
out: every page has at least one vector). -/
def rowMax : List ℚ → ℚ
  | [] => 0
  | [x] => x
  | x :: y :: xs => max x (rowMax (y :: xs))

/-- Modelled from the spec: the MaxSim (ColBERT-style late interaction)
score as a function of the similarity matrix.  Row `q` of the matrix
lists the similarities of query vector `q` against each stored page
vector; the score is the sum over query vectors of the row maxima.
(The `max_sim` SQL aggregate itself is not under `src/`.) -/
def maxSimScoreM (sims : List (List ℚ)) : ℚ :=
  (sims.map rowMax).sum

/-- Dot-product similarity of two vectors (truncating to the common
length, which is always 128 for stored and query vectors). -/
def dot (v w : List ℚ) : ℚ :=
  (List.zipWith (· * ·) v w).sum

/-- Modelled from the spec: the raw summed MaxSim score of a page whose
stored vectors are `pageVecs` against the query multi-vector
`queryVecs`: for each query vector take the maximum dot similarity
against all page vectors, then sum the maxima. -/
def maxSimSQL (pageVecs queryVecs : List (List ℚ)) : ℚ :=
  maxSimScoreM (queryVecs.map fun qv => pageVecs.map fun pv => dot qv pv)

/-! ## Retrieval engine: the `search` / `search-image` views

`views.py::search` and `views.py::search_image` have textually identical
bodies after the embedding call; the shared body is embedded once as
`searchCore`.
-/

/-- Response of the embedding service to a single query/image embedding
call: HTTP status plus the decoded `output.data[0].embedding` payload of
a successful body. -/
structure QueryEmbResponse where
  status : Nat
  embedding : List (List ℚ)
deriving Repr, DecidableEq

/-- Model of `views.py::get_query_embeddings`: a non-200 status yields `[]`,
otherwise the `output.data[0].embedding` list is returned. -/
def getQueryEmbeddings (r : QueryEmbResponse) : List (List ℚ) :=
  if r.status ≠ 200 then [] else r.embedding

/-- Model of `views.py::get_image_embeddings`: identical handling to
`get_query_embeddings` (only the request `task` differs). -/
def getImageEmbeddings (r : QueryEmbResponse) : List (List ℚ) :=
  if r.status ≠ 200 then [] else r.embedding

/-- A candidate page row surviving the scope/metadata filter, with its
aggregated embedding vectors (`ArrayAgg("embeddings__embedding")`). -/
structure PageRow where
  id : Nat
  pageNumber : Nat
  vectors : List (List ℚ)
deriving Repr, DecidableEq

/-- One formatted result row (`PageOutQuery`): raw and normalized score
are both returned. -/
structure PageOutQuery where
  pageNumber : Nat
  rawScore : ℚ
  normalizedScore : ℚ
deriving Repr, DecidableEq

/-- Outcome of a search request. -/
inductive SearchOutcome where
  /-- 503: the embedding call failed, no ranking is returned. -/
  | serviceUnavailable : SearchOutcome
  /-- 200 with the ranked, truncated, formatted result rows. -/
  | results : List PageOutQuery → SearchOutcome
  /-- an uncaught exception (500), e.g. negative queryset slicing. -/
  | serverError : String → SearchOutcome
deriving Repr, DecidableEq

/-- Queryset truncation `[: payload.top_k or 3]`: `None` and `0` both
fall back to the default `3`; Django rejects negative slice bounds. -/
def sliceTopK {α : Type} (topK : Option Int) (l : List α) : Except String (List α) :=
  let k : Int := match topK with
    | none => 3
    | some k0 => if k0 = 0 then 3 else k0
  if k < 0 then .error "Negative indexing is not supported." else .ok (l.take k.toNat)

/-- Shared body of `views.py::search` and `views.py::search_image` after
the embedding call: empty query embeddings give a 503; otherwise pages
are scored with `max_sim` against the query multi-vector, ordered by
descending raw score, truncated to `top_k or 3`, and formatted with both
the raw score and the score normalized by the query vector count. -/
def searchCore (queryEmbeddings : List (List ℚ)) (pages : List PageRow)
    (topK : Option Int) : SearchOutcome :=
  if queryEmbeddings.isEmpty then .serviceUnavailable
  else
    let queryLength := queryEmbeddings.length
    let scored := pages.map fun p => (p, maxSimSQL p.vectors queryEmbeddings)
    let ordered := scored.mergeSort fun a b => decide (b.2 ≤ a.2)
    match sliceTopK topK ordered with
    | .error e => .serverError e
    | .ok top =>
      .results (top.map fun pr =>
        { pageNumber := pr.1.pageNumber
          rawScore := pr.2
          normalizedScore := pr.2 / (queryLength : ℚ) })

/-- Model of `views.py::search` (text search). -/
def search (resp : QueryEmbResponse) (pages : List PageRow)
    (topK : Option Int) : SearchOutcome :=
  searchCore (getQueryEmbeddings resp) pages topK

/-- Model of `views.py::search_image` (image search). -/
def searchImage (resp : QueryEmbResponse) (pages : List PageRow)
    (topK : Option Int) : SearchOutcome :=
  searchCore (getImageEmbeddings resp) pages topK

/-! ## Metadata-filter validation (`views.py::QueryFilter`) -/

/-- The `key` field: `Union[str, List[str]]`. -/
inductive FilterKey where
  | str : String → FilterKey
  | list : List String → FilterKey
deriving Repr, DecidableEq

/-- A scalar filter value: `Union[str, int, float, bool]`. -/
inductive ScalarValue where
  | s : String → ScalarValue
  | i : Int → ScalarValue
  | f : ℚ → ScalarValue
  | b : Bool → ScalarValue
deriving Repr, DecidableEq

/-- The `lookup` field of a `QueryFilter`. -/
inductive Lookup where
  | key_lookup | contains | contained_by | has_key | has_keys | has_any_keys
deriving Repr, DecidableEq

/-- Python `isinstance(key, str)`. -/
def FilterKey.isStr : FilterKey → Bool
  | .str _ => true
  | .list _ => false

/-- Python `isinstance(key, list)`. -/
def FilterKey.isList : FilterKey → Bool
  | .str _ => false
  | .list _ => true

/-- Model of `views.py::QueryFilter.validate_filter`, as the sequence of checks
the Python validator performs; the first failing check raises. -/
def validateFilter (key : FilterKey) (value : Option ScalarValue)
    (lookup : Lookup) : Except String Unit :=
  if lookup = .contains ∨ lookup = .contained_by ∨ lookup = .key_lookup then
    if ¬key.isStr then .error "Key must be a string."
    else if value = none then .error "Value must be provided."
    else .ok ()
  else if lookup = .has_key then
    if ¬key.isStr then .error "Key must be a string."
    else if value ≠ none then .error "Value must be None."
    else .ok ()
  else
    -- the remaining lookups are has_keys and has_any_keys
    if ¬key.isList then .error "Key must be a list of strings."
    else if value ≠ none then .error "Value must be None."
    else .ok ()

/-- The shape rules as the spec states them: equality/containment
lookups need a single string key and a present scalar value; `has_key`
needs a single string key and no value; `has_keys`/`has_any_keys` need a
list of keys and no value. -/
def specFilterAccepted (key : FilterKey) (value : Option ScalarValue)
    (lookup : Lookup) : Prop :=
  match lookup with
  | .key_lookup | .contains | .contained_by =>
      (∃ k, key = .str k) ∧ ∃ v, value = some v
  | .has_key => (∃ k, key = .str k) ∧ value = none
  | .has_keys | .has_any_keys => (∃ ks, key = .list ks) ∧ value = none

/-! ## Data model and store (`web/api/models.py`)

Rows are modelled as lists; the cascade `Document → Page → PageEmbedding`
ownership is modelled by nesting pages (with their vector sets) inside
the document record.
-/

/-- A `Page` row together with its owned `PageEmbedding` vector set. -/
structure PageRec where
  pageNumber : Nat
  img : String
  vectors : List (List ℚ)
deriving Repr, DecidableEq

/-- A `Document` row (with its owned pages), keyed by
`(name, collection name, collection owner)`. -/
structure DocRec where
  name : String
  collName : String
  collOwner : Nat
  metadata : List (String × String)
  url : String
  pages : List PageRec
deriving Repr, DecidableEq

/-- A `Collection` row, keyed by `(name, owner)`. -/
structure CollRec where
  name : String
  owner : Nat
  metadata : List (String × String)
deriving Repr, DecidableEq

/-- The relational store. -/
structure Store where
  collections : List CollRec
  documents : List DocRec
deriving Repr, DecidableEq

/-- Whether a document row matches the key of `d`. -/
def docKeyEq (d r : DocRec) : Bool :=
  r.name = d.name && r.collName = d.collName && r.collOwner = d.collOwner

/-- Look up a document row by key. -/
def Store.findDoc (st : Store) (name collName : String) (owner : Nat) :
    Option DocRec :=
  st.documents.find? fun r =>
    r.name = name && r.collName = collName && r.collOwner = owner

/-- Model of `Document.objects.filter(...).aexists()`. -/
def Store.hasDoc (st : Store) (name collName : String) (owner : Nat) : Bool :=
  (st.findDoc name collName owner).isSome

/-- Model of `document.asave()`: update the scalar fields of the matching row if
it exists (its pages are untouched), otherwise insert the row. -/
def Store.asaveDoc (st : Store) (d : DocRec) : Store :=
  if st.documents.any (docKeyEq d) then
    { st with documents := st.documents.map fun r =>
        if docKeyEq d r then { d with pages := r.pages } else r }
  else
    { st with documents := st.documents ++ [d] }

/-- Model of `document.adelete()`: remove the row (pages cascade away with it). -/
def Store.deleteDoc (st : Store) (d : DocRec) : Store :=
  { st with documents := st.documents.filter fun r => ¬docKeyEq d r }

/-- Replace the page set of the matching document row. -/
def Store.setDocPages (st : Store) (d : DocRec) (pages : List PageRec) : Store :=
  { st with documents := st.documents.map fun r =>
      if docKeyEq d r then { r with pages := pages } else r }

/-- Model of `document.pages.all().adelete()`. -/
def Store.clearPages (st : Store) (name collName : String) (owner : Nat) : Store :=
  { st with documents := st.documents.map fun r =>
      if r.name = name && r.collName = collName && r.collOwner = owner then
        { r with pages := [] }
      else r }

/-- Whether a collection `(name, owner)` exists. -/
def Store.hasCollection (st : Store) (name : String) (owner : Nat) : Bool :=
  st.collections.any fun c => c.name = name && c.owner = owner

/-- Insert of a `Collection` row, enforcing the model constraints of
`Collection.Meta`: the check constraint `collection_name_not_all`
(`~Q(name="all")`) and the unique constraint on `(name, owner)`.  A
violated constraint surfaces as an `IntegrityError`. -/
def Store.insertCollection (st : Store) (c : CollRec) : Except String Store :=
  if c.name = "all" then
    .error "IntegrityError: check constraint collection_name_not_all"
  else if st.hasCollection c.name c.owner then
    .error "IntegrityError: unique constraint unique_collection_per_user"
  else
    .ok { st with collections := st.collections ++ [c] }

/-- Model of `Collection.objects.aget_or_create(name=..., owner=...)`: return the
store unchanged when the row exists, otherwise insert it (subject to the
model constraints). -/
def Store.getOrCreateCollection (st : Store) (name : String) (owner : Nat) :
    Except String Store :=
  if st.hasCollection name owner then .ok st
  else st.insertCollection { name := name, owner := owner, metadata := [] }

/-! ## Ingestion orchestrator (`Document.embed_document` and
`views.py::process_upsert_document`) -/

/-- Response of the embedding service to one batch call: HTTP status
plus, for a 200 body, the decoded `output.data` list (one embedding
object per image, each a list of vectors); `none` models a body missing
`output`/`data`. -/
structure BatchResponse where
  status : Nat
  data : Option (List (List (List ℚ)))
deriving Repr

/-- Environment of one `embed_document` run: the outcome of
`_prep_document` and the embedding-service response to the `i`-th batch
call. -/
structure EmbedEnv where
  prep : Except String (List String)
  batch : Nat → BatchResponse

/-- Model of `send_batch`: a non-200 status or a body without `output.data` is a
hard failure (`ValidationError`); retries concern only transport errors
and are invisible here. -/
def sendBatch (r : BatchResponse) : Except String (List (List (List ℚ))) :=
  if r.status ≠ 200 then
    .error "Failed to get embeddings from the embeddings service."
  else
    match r.data with
    | none => .error "Failed to get embeddings from the embeddings service. Response malformed."
    | some d => .ok d

/-- Batching with `EMBEDDINGS_BATCH_SIZE = 3`: split the page images into batches of
three (the slices `base64_images[i : i + 3]`). -/
def chunk3 : List String → List (List String)
  | [] => []
  | [a] => [[a]]
  | [a, b] => [[a, b]]
  | a :: b :: c :: rest => [a, b, c] :: chunk3 rest

/-- The sequential batch loop: send each batch in order, extending the
result list, stopping at the first failure.  Also returns the number of
embedding-service calls made. -/
def collectBatches : List BatchResponse → Except String (List (List (List ℚ))) × Nat
  | [] => (.ok [], 0)
  | r :: rs =>
    match sendBatch r with
    | .error e => (.error e, 1)
    | .ok d =>
      let (rest, c) := collectBatches rs
      (match rest with
       | .error e => .error e
       | .ok tail => .ok (d ++ tail), c + 1)

/-- The page-building loop over the flattened embedding results
(`for i, embedding_obj in enumerate(embedding_results)`): assert the
object is a list of lists whose first vector has 128 entries (an empty
list raises `IndexError` inside the assert), create the page with
`page_number = i + 1` and `img_base64 = base64_images[i]` (raising
`IndexError` when `i` is out of range), then bulk-insert the vectors —
the `halfvec(128)` column (`PageEmbedding.embedding`,
`HalfVectorField(dimensions=128)`) rejects any vector whose length is
not 128. -/
def buildPages (imgs : List String) : List (List (List ℚ)) → Nat →
    Except String (List PageRec)
  | [], _ => .ok []
  | e :: rest, i =>
    match e with
    | [] => .error "IndexError: embedding object is empty"
    | v :: _ =>
      if v.length ≠ 128 then
        .error "Embedding is not a list of a list of 128 floats"
      else
        match imgs.get? i with
        | none => .error "IndexError: base64_images"
        | some img =>
          if e.all fun w => w.length = 128 then
            match buildPages imgs rest (i + 1) with
            | .error err => .error err
            | .ok tail => .ok ({ pageNumber := i + 1, img := img, vectors := e } :: tail)
          else
            .error "halfvec: expected 128 dimensions"

/-- Result of `embed_document`: the final store, and on failure the
propagated `ValidationError` message. -/
inductive EmbedResult where
  | ok : Store → EmbedResult
  | err : Store → String → EmbedResult
deriving Repr, DecidableEq

/-- The store a result left behind. -/
def EmbedResult.store : EmbedResult → Store
  | .ok st => st
  | .err st _ => st

/-- Model of `Document.embed_document` (web version).  `_prep_document` runs
before the `try` block, so a failure there propagates without any
cleanup; from `asave` on, any exception deletes the document (cascading
to its pages). -/
def embedDocument (st : Store) (d : DocRec) (env : EmbedEnv) : EmbedResult :=
  match env.prep with
  | .error e => .err st e
  | .ok imgs =>
    let batches := chunk3 imgs
    let st1 := st.asaveDoc d
    let responses := (List.range batches.length).map env.batch
    match (collectBatches responses).1 with
    | .error e => .err (st1.deleteDoc d) ("Failed to save pages: " ++ e)
    | .ok objs =>
      match buildPages imgs objs 0 with
      | .error e => .err (st1.deleteDoc d) ("Failed to save pages: " ++ e)
      | .ok pages => .ok (st1.setDocPages d pages)

/-- Number of embedding-service calls an `embed_document` run makes. -/
def embedCallCount (env : EmbedEnv) : Nat :=
  match env.prep with
  | .error _ => 0
  | .ok imgs =>
    (collectBatches (((List.range (chunk3 imgs).length)).map env.batch)).2

/-- The upsert payload (`DocumentIn`), after pydantic validation:
exactly one of `url`/`base64` is set. -/
structure DocPayload where
  name : String
  metadata : List (String × String)
  collectionName : String
  url : Option String
  base64 : Option String
deriving Repr

/-- Outcome of `process_upsert_document` / `upsert_document`: an HTTP
response (status, final store) or an uncaught exception. -/
inductive ProcResult where
  | resp : Nat → Store → ProcResult
  | exn : Store → String → ProcResult
deriving Repr, DecidableEq

/-- The store a `ProcResult` left behind. -/
def ProcResult.store : ProcResult → Store
  | .resp _ st => st
  | .exn st _ => st

/-- Model of `views.py::process_upsert_document`: get-or-create the collection
(outside the `try`, so an `IntegrityError` there escapes); on the update
path clear the existing pages; an inline base64 payload is persisted to
blob storage first, which also saves the document row; then
`embed_document` runs, and any exception it raises is answered with a
400 error (the store is left as `embed_document` left it). -/
def processUpsertDocument (st : Store) (p : DocPayload) (owner : Nat)
    (env : EmbedEnv) : ProcResult :=
  match st.getOrCreateCollection p.collectionName owner with
  | .error e => .exn st e
  | .ok st0 =>
    let docExists := st0.hasDoc p.name p.collectionName owner
    let st1 := if docExists then st0.clearPages p.name p.collectionName owner else st0
    let d : DocRec :=
      { name := p.name, collName := p.collectionName, collOwner := owner,
        metadata := p.metadata, url := p.url.getD "", pages := [] }
    let st2 := if p.base64.isSome then st1.asaveDoc d else st1
    match embedDocument st2 d env with
    | .ok stf => .resp 201 stf
    | .err stf _ => .resp 400 stf

/-- Model of `views.py::upsert_document`: the collection name `"all"` is rejected
with a 400 before any processing; otherwise the upsert is processed
(synchronously or as a background task running the very same
`process_upsert_document`). -/
def upsertDocument (st : Store) (p : DocPayload) (owner : Nat)
    (env : EmbedEnv) : ProcResult :=
  if p.collectionName = "all" then .resp 400 st
  else processUpsertDocument st p owner env

/-- Model of `views.py::create_collection`: the pydantic validator rejects any
name whose lowercasing is `"all"` (422); `acreate` surfaces an
`IntegrityError` as a 409 conflict. -/
def createCollection (st : Store) (name : String)
    (metadata : List (String × String)) (owner : Nat) : Nat × Store :=
  if name.toLower = "all" then (422, st)
  else
    match st.insertCollection { name := name, owner := owner, metadata := metadata } with
    | .ok st' => (201, st')
    | .error _ => (409, st)

/-- No collection named `"all"` exists in the store. -/
def Store.noAll (st : Store) : Bool :=
  st.collections.all fun c => c.name ≠ "all"

/-! ## Document normalizer (`Document._prep_document`,
`Document._fetch_document`) -/

/-- The maximum payload size: `50 * 1024 * 1024` bytes. -/
def MAX_SIZE_BYTES : Nat := 50 * 1024 * 1024

/-- Image extensions that skip PDF conversion. -/
def IMAGE_EXTENSIONS : List String :=
  ["png", "jpg", "jpeg", "tiff", "bmp", "gif"]

/-- The allow-list of `_prep_document` (before images are appended). -/
def OFFICE_EXTENSIONS : List String :=
  ["123", "602", "abw", "bib", "cdr", "cgm", "cmx", "csv", "cwk", "dbf",
   "dif", "doc", "docm", "docx", "dot", "dotm", "dotx", "dxf", "emf",
   "eps", "epub", "fodg", "fodp", "fods", "fodt", "fopd", "htm", "html",
   "hwp", "key", "ltx", "lwp", "mcw", "met", "mml", "mw", "numbers",
   "odd", "odg", "odm", "odp", "ods", "odt", "otg", "oth", "otp", "ots",
   "ott", "pages", "pbm", "pcd", "pct", "pcx", "pdb", "pdf", "pgm",
   "pot", "potm", "potx", "ppm", "pps", "ppt", "pptm", "pptx", "psd",
   "psw", "pub", "pwp", "pxl", "ras", "rtf", "sda", "sdc", "sdd", "sdp",
   "sdw", "sgl", "slk", "smf", "stc", "std", "sti", "stw", "svg", "svm",
   "swf", "sxc", "sxd", "sxg", "sxi", "sxm", "sxw", "tga", "txt", "uof",
   "uop", "uos", "uot", "vdx", "vor", "vsd", "vsdm", "vsdx", "wb2",
   "wk1", "wks", "wmf", "wpd", "wpg", "wps", "xbm", "xhtml", "xls",
   "xlsb", "xlsm", "xlsx", "xlt", "xltm", "xltx", "xlw", "xml", "xpm",
   "zabw"]

/-- The `ALLOWED_EXTENSIONS` list with the image extensions appended. -/
def ALLOWED_EXTENSIONS : List String :=
  OFFICE_EXTENSIONS ++ IMAGE_EXTENSIONS

/-- Model of `models.py::get_extension_from_mime`: a hard-coded table first, then
`mimetypes.guess_extension` (an external table, passed in as `guess`),
then the `.bin` fallback.  The returned extension carries a dot. -/
def getExtensionFromMime (guess : String → Option String)
    (mime : String) : String :=
  let hardcoded : List (String × String) :=
    [("application/vnd.openxmlformats-officedocument.wordprocessingml.document", ".docx"),
     ("application/vnd.openxmlformats-officedocument.presentationml.presentation", ".pptx"),
     ("application/vnd.openxmlformats-officedocument.spreadsheetml.sheet", ".xlsx"),
     ("application/msword", ".doc"),
     ("application/vnd.ms-powerpoint", ".ppt"),
     ("application/vnd.ms-excel", ".xls"),
     ("image/jpeg", ".jpg"),
     ("image/png", ".png"),
     ("image/gif", ".gif"),
     ("application/pdf", ".pdf"),
     ("application/csv", ".csv")]
  match hardcoded.lookup mime with
  | some ext => ext
  | none =>
    match guess mime with
    | some ext => ext
    | none => ".bin"

/-- Bytes are modelled as lists of byte values. -/
abbrev Bytes := List Nat

/-- The HTTP response to the source-URL `GET`. -/
structure FetchResponse where
  status : Nat
  contentType : String
  /-- the `filename="..."` group of the `Content-Disposition` header -/
  dispositionFilename : Option String
  contentLength : Option Nat
  body : Bytes
deriving Repr

/-- The inputs and external collaborators of one `_prep_document` run. -/
structure PrepInput where
  /-- the `document_data` argument (`some []` is falsy, like `b""`) -/
  documentData : Option Bytes
  /-- `self.s3_file`: basename and content of the stored blob -/
  s3 : Option (String × Bytes)
  /-- `self.url` (`""` is falsy) -/
  url : String
  /-- the response `_fetch_document` observes for `self.url` -/
  fetch : FetchResponse
  /-- `os.path.basename(urlparse(self.url).path)` -/
  urlBasename : String
  /-- `magic` MIME sniffing of a byte payload -/
  sniffMime : Bytes → String
  /-- `mimetypes.guess_extension` -/
  guess : String → Option String
  /-- `_convert_url_to_pdf` (Gotenberg chromium) outcome -/
  urlToPdf : Except String Bytes
  /-- `_convert_to_pdf` (Gotenberg libreoffice) outcome -/
  fileToPdf : Except String Bytes
  /-- `pdf2image.convert_from_bytes`: page images, `none` = exception -/
  rasterize : Bytes → Option (List Bytes)
  /-- PIL PNG encoding of a page image -/
  png : Bytes → Bytes
  /-- base64 encoding -/
  b64 : Bytes → String

/-- Model of `Document._fetch_document`: a non-200 status is a fetch failure; a
declared `Content-Length` above the limit is rejected before the body is
read; otherwise the content type (lowercased), the resolved filename and
the body are returned. -/
def fetchDocument (resp : FetchResponse) (urlBasename : String) :
    Except String (String × String × Bytes) :=
  if resp.status ≠ 200 then
    .error "Failed to fetch document info from URL. Some documents are protected by anti-scrapping measures. We recommend you download them and send us base64."
  else if (match resp.contentLength with
           | some cl => decide (cl > MAX_SIZE_BYTES)
           | none => false) = true then
    .error "Document exceeds maximum size of 50MB."
  else
    let f0 := match resp.dispositionFilename with
      | some f => f
      | none => urlBasename
    let filename := if f0 = "" then "downloaded_file" else f0
    .ok (strToLower resp.contentType, filename, resp.body)

/-- Step 1 of `_prep_document`: resolve `(document_data, filename,
extension?)` from the document source, in the branch order of the code
(`document_data`, then `s3_file`, then `url`, else a missing-source
error).  In the webpage sub-branch the fetched body is replaced by the
Gotenberg URL→PDF conversion before any size check. -/
def resolveSource (inp : PrepInput) : Except String (Bytes × String × Option String) :=
  match inp.documentData with
  | some dd =>
    if dd.isEmpty then resolveSourceNoData inp
    else
      let ext := lstripDot (getExtensionFromMime inp.guess (inp.sniffMime dd))
      .ok (dd, "document." ++ ext, some ext)
  | none => resolveSourceNoData inp
where
  /-- the `elif self.s3_file` / `elif self.url` / `else` chain -/
  resolveSourceNoData (inp : PrepInput) :
      Except String (Bytes × String × Option String) :=
    match inp.s3 with
    | some (fname, content) => .ok (content, fname, none)
    | none =>
      if inp.url = "" then
        .error "Document data is missing. Please provide a document or a URL."
      else
        match fetchDocument inp.fetch inp.urlBasename with
        | .error e => .error e
        | .ok (ct, fname, body) =>
          if strContainsSub ct "text/html" then
            match inp.urlToPdf with
            | .error e => .error e
            | .ok pdf => .ok (pdf, fname ++ ".pdf", none)
          else
            let ext :=
              if strContainsSub ct "application/pdf" then "pdf"
              else lstripDot (getExtensionFromMime inp.guess ct)
            let name := (splitExt fname).1
            .ok (body, name ++ "." ++ ext, some ext)

/-- Steps 3–4 of `_prep_document`: rasterize a PDF into page images and
base64-encode each page's PNG. -/
def rasterizeAndEncode (inp : PrepInput) (pdf : Bytes) :
    Except String (List String) :=
  match inp.rasterize pdf with
  | none =>
    .error "Failed to convert PDF to images. The PDF may be corrupted, which sometimes happens with URLs. Try downloading the document and sending us the base64."
  | some pages => .ok (pages.map fun pg => inp.b64 (inp.png pg))

/-- Model of `Document._prep_document`: resolve the source, check the 50 MiB
limit against the actual bytes, check the extension allow-list, then
branch — images are returned base64-encoded as a single page, PDFs are
rasterized directly, everything else is converted to PDF via Gotenberg
first. -/
def prepDocument (inp : PrepInput) : Except String (List String) :=
  match resolveSource inp with
  | .error e => .error e
  | .ok (data, filename, extOpt) =>
    if data.isEmpty then .error "AssertionError: Document data should be set"
    else if filename = "" then .error "AssertionError: Filename should be set"
    else
      let extension := match extOpt with
        | some e => if e = "" then lstripDot (splitExt filename).2 else e
        | none => lstripDot (splitExt filename).2
      if data.length > MAX_SIZE_BYTES then
        .error "Document exceeds maximum size of 50MB."
      else if ¬(ALLOWED_EXTENSIONS.contains extension) then
        .error ("File extension ." ++ extension ++ " is not allowed.")
      else
        let isImage := IMAGE_EXTENSIONS.contains extension
        let isPdf := extension = "pdf"
        if ¬isImage ∧ ¬isPdf then
          match inp.fileToPdf with
          | .error e => .error e
          | .ok pdf => rasterizeAndEncode inp pdf
        else if isPdf then rasterizeAndEncode inp data
        else .ok [inp.b64 data]

/-! ## Lemmas about the MaxSim score -/

theorem rowMax_mono : ∀ (l₁ l₂ : List ℚ), l₁.length = l₂.length →
    (∀ i (h₁ : i < l₁.length) (h₂ : i < l₂.length), l₁[i] ≤ l₂[i]) →
    rowMax l₁ ≤ rowMax l₂
  | [], [], _, _ => le_refl 0
  | [_], [_], _, h => h 0 (by simp) (by simp)
  | _ :: _ :: _, _ :: _ :: _, hlen, h => by
    have h0 := h 0 (by simp) (by simp)
    have ih := rowMax_mono _ _ (by simpa using hlen)
      (fun i h₁ h₂ => h (i + 1) (by simpa using h₁) (by simpa using h₂))
    simpa only [rowMax] using max_le_max h0 ih
  | [], _ :: _, hlen, _ => by simp at hlen
  | _ :: _, [], hlen, _ => by simp at hlen
  | [_], _ :: _ :: _, hlen, _ => by simp at hlen
  | _ :: _ :: _, [_], hlen, _ => by simp at hlen

theorem sum_set_ge : ∀ (l : List ℚ) (i : Nat) (x : ℚ) (h : i < l.length),
    l[i] ≤ x → l.sum ≤ (l.set i x).sum
  | [], i, _, h, _ => absurd h (by simp)
  | a :: as, 0, x, _, hx => by
    simpa only [List.set_cons_zero, List.sum_cons] using
      add_le_add_right hx as.sum
  | a :: as, i + 1, x, h, hx => by
    have ih := sum_set_ge as i x (by simpa using h) (by simpa using hx)
    simpa only [List.set_cons_succ, List.sum_cons] using
      add_le_add_left ih a

theorem rowMax_set_ge (l : List ℚ) (p : Nat) (v : ℚ) (hp : p < l.length)
    (hv : l[p] ≤ v) : rowMax l ≤ rowMax (l.set p v) := by
  apply rowMax_mono l (l.set p v) (by simp)
  intro i h₁ h₂
  by_cases hip : p = i
  · subst hip
    rw [List.getElem_set_self]
    exact hv
  · rw [List.getElem_set_ne hip]

/-! ## Lemmas about the search pipeline -/

theorem searchCore_results (qe : List (List ℚ)) (pages : List PageRow)
    (topK : Option Int) (out : List PageOutQuery)
    (h : searchCore qe pages topK = .results out) :
    qe ≠ [] ∧ ∀ row ∈ out, ∃ p ∈ pages,
      row.pageNumber = p.pageNumber ∧
      row.rawScore = maxSimSQL p.vectors qe ∧
      row.normalizedScore = row.rawScore / (qe.length : ℚ) := by
  unfold searchCore at h
  dsimp only at h
  split at h
  · exact absurd h (by simp)
  · next hne =>
    refine ⟨by simpa using hne, ?_⟩
    split at h
    · exact absurd h (by simp)
    · next top hslice =>
      rw [SearchOutcome.results.injEq] at h
      subst h
      intro row hrow
      obtain ⟨pr, hpr, hfmt⟩ := List.mem_map.mp hrow
      have hpr1 : pr ∈ (pages.map fun p =>
          (p, maxSimSQL p.vectors qe)).mergeSort fun a b => decide (b.2 ≤ a.2) := by
        unfold sliceTopK at hslice
        dsimp only at hslice
        split at hslice
        · exact absurd hslice (by simp)
        · rw [Except.ok.injEq] at hslice
          exact List.take_subset _ _ (hslice ▸ hpr)
      obtain ⟨p, hp, hpeq⟩ := List.mem_map.mp (List.mem_mergeSort.mp hpr1)
      exact ⟨p, hp, by subst hpeq; subst hfmt; exact ⟨rfl, rfl, rfl⟩⟩

theorem searchCore_topK_zero (qe : List (List ℚ)) (pages : List PageRow) :
    searchCore qe pages (some 0) = searchCore qe pages none := rfl

theorem searchCore_topK_bound (qe : List (List ℚ)) (pages : List PageRow)
    (k : Int) (out : List PageOutQuery) (hk : 0 < k)
    (h : searchCore qe pages (some k) = .results out) :
    out.length ≤ k.toNat := by
  unfold searchCore at h
  dsimp only at h
  split at h
  · exact absurd h (by simp)
  · split at h
    · exact absurd h (by simp)
    · next top hslice =>
      rw [SearchOutcome.results.injEq] at h
      subst h
      unfold sliceTopK at hslice
      dsimp only at hslice
      have hk0 : ¬(k = 0) := by omega
      rw [if_neg hk0] at hslice
      have hkneg : ¬(k < 0) := by omega
      rw [if_neg hkneg, Except.ok.injEq] at hslice
      subst hslice
      simp only [List.length_map, List.length_take]
      omega

theorem searchCore_default_nonempty (qe : List (List ℚ)) (pages : List PageRow)
    (out : List PageOutQuery)
    (h : searchCore qe pages (some 0) = .results out) (hp : pages ≠ []) :
    out ≠ [] := by
  unfold searchCore at h
  dsimp only at h
  split at h
  · exact absurd h (by simp)
  · split at h
    · exact absurd h (by simp)
    · next top hslice =>
      rw [SearchOutcome.results.injEq] at h
      subst h
      unfold sliceTopK at hslice
      dsimp only at hslice
      rw [if_pos rfl, if_neg (by norm_num), Except.ok.injEq] at hslice
      subst hslice
      have hlen : pages.length ≠ 0 := fun hl => hp (List.eq_nil_of_length_eq_zero hl)
      simp only [ne_eq, ← List.length_eq_zero, List.length_map, List.length_take,
        List.length_mergeSort, List.length_map]
      omega

/-! ## Lemmas about the store and the orchestrator -/

theorem find?_update {α : Type} (l : List α) (p : α → Bool) (f : α → α)
    (hf : ∀ r, p r = true → p (f r) = true) :
    (l.map fun r => if p r then f r else r).find? p = (l.find? p).map f := by
  induction l with
  | nil => rfl
  | cons a t ih =>
    by_cases ha : p a = true
    · simp [List.find?_cons, ha, hf a ha]
    · have ha2 : p a = false := by simpa using ha
      simp [List.find?_cons, ha2, ih]

theorem find?_filter_not {α : Type} (l : List α) (p : α → Bool) :
    (l.filter fun r => ¬p r).find? p = none := by
  rw [List.find?_eq_none]
  intro x hx
  have := List.of_mem_filter hx
  simpa using this

theorem findDoc_eq_find? (st : Store) (d : DocRec) :
    st.findDoc d.name d.collName d.collOwner = st.documents.find? (docKeyEq d) := rfl

theorem docKeyEq_self_pages (d : DocRec) (pgs : List PageRec) :
    docKeyEq d { d with pages := pgs } = true := by
  simp [docKeyEq]

theorem findDoc_asaveDoc (st : Store) (d : DocRec) :
    ∃ rec, (st.asaveDoc d).findDoc d.name d.collName d.collOwner = some rec := by
  rw [findDoc_eq_find?]
  unfold Store.asaveDoc
  by_cases hany : st.documents.any (docKeyEq d) = true
  · rw [if_pos hany]
    dsimp only
    rw [find?_update st.documents (docKeyEq d) (fun r => { d with pages := r.pages })
      (fun r _ => docKeyEq_self_pages d r.pages)]
    obtain ⟨x, hx, hpx⟩ := List.any_eq_true.mp hany
    have hsome : (st.documents.find? (docKeyEq d)).isSome = true :=
      List.find?_isSome.mpr ⟨x, hx, hpx⟩
    obtain ⟨r0, hr0⟩ := Option.isSome_iff_exists.mp hsome
    exact ⟨{ d with pages := r0.pages }, by rw [hr0]; rfl⟩
  · rw [if_neg hany]
    dsimp only
    rw [List.find?_append]
    have hnone : st.documents.find? (docKeyEq d) = none := by
      rw [List.find?_eq_none]
      intro x hx hpx
      exact hany (List.any_eq_true.mpr ⟨x, hx, hpx⟩)
    rw [hnone]
    exact ⟨d, by simp [List.find?_cons, docKeyEq]⟩

theorem findDoc_setDocPages (st : Store) (d : DocRec) (pgs : List PageRec) :
    (st.setDocPages d pgs).findDoc d.name d.collName d.collOwner =
      (st.findDoc d.name d.collName d.collOwner).map
        fun r => { r with pages := pgs } := by
  rw [findDoc_eq_find?, findDoc_eq_find?]
  unfold Store.setDocPages
  exact find?_update st.documents (docKeyEq d) (fun r => { r with pages := pgs })
    (fun r hr => by
      simp only [docKeyEq, Bool.and_eq_true, decide_eq_true_eq] at hr ⊢
      exact hr)

theorem findDoc_deleteDoc (st : Store) (d : DocRec) :
    (st.deleteDoc d).findDoc d.name d.collName d.collOwner = none := by
  rw [findDoc_eq_find?]
  exact find?_filter_not st.documents (docKeyEq d)

theorem buildPages_numbers : ∀ (objs : List (List (List ℚ)))
    (imgs : List String) (i : Nat) (ps : List PageRec),
    buildPages imgs objs i = .ok ps →
    ps.map PageRec.pageNumber = List.range' (i + 1) ps.length
  | [], _, _, ps, h => by
    simp only [buildPages, Except.ok.injEq] at h
    subst h
    rfl
  | e :: rest, imgs, i, ps, h => by
    simp only [buildPages] at h
    match e, h with
    | v :: vs, h =>
      dsimp only at h
      split at h
      · exact absurd h (by simp)
      · split at h
        · exact absurd h (by simp)
        · next img himg =>
          split at h
          · split at h
            · exact absurd h (by simp)
            · next tail htail =>
              rw [Except.ok.injEq] at h
              subst h
              have ih := buildPages_numbers rest imgs (i + 1) tail htail
              simp only [List.map_cons, List.length_cons, ih, List.range'_succ]
          · exact absurd h (by simp)

theorem buildPages_vectors128 : ∀ (objs : List (List (List ℚ)))
    (imgs : List String) (i : Nat) (ps : List PageRec),
    buildPages imgs objs i = .ok ps →
    ∀ pg ∈ ps, ∀ v ∈ pg.vectors, v.length = 128
  | [], _, _, ps, h => by
    simp only [buildPages, Except.ok.injEq] at h
    subst h
    intro pg hpg
    exact absurd hpg (by simp)
  | e :: rest, imgs, i, ps, h => by
    simp only [buildPages] at h
    match e, h with
    | v :: vs, h =>
      dsimp only at h
      split at h
      · exact absurd h (by simp)
      · split at h
        · exact absurd h (by simp)
        · next img himg =>
          split at h
          · next hall =>
            split at h
            · exact absurd h (by simp)
            · next tail htail =>
              rw [Except.ok.injEq] at h
              subst h
              intro pg hpg
              rcases List.mem_cons.mp hpg with hpg | hpg
              · subst hpg
                intro w hw
                exact of_decide_eq_true (List.all_eq_true.mp hall w hw)
              · exact buildPages_vectors128 rest imgs (i + 1) tail htail pg hpg
          · exact absurd h (by simp)

theorem buildPages_bad_not_ok : ∀ (objs : List (List (List ℚ)))
    (imgs : List String) (i : Nat),
    (∃ e ∈ objs, e = [] ∨ ∃ v ∈ e, v.length ≠ 128) →
    ∃ msg, buildPages imgs objs i = .error msg
  | [], _, _, hbad => absurd hbad (by simp)
  | e :: rest, imgs, i, hbad => by
    simp only [buildPages]
    match e, hbad with
    | [], _ => exact ⟨_, rfl⟩
    | v :: vs, hbad =>
      dsimp only
      by_cases hv : v.length ≠ 128
      · rw [if_pos hv]
        exact ⟨_, rfl⟩
      · rw [if_neg hv]
        match himg : imgs.get? i with
        | none => exact ⟨_, rfl⟩
        | some img =>
          dsimp only
          rcases hbad with ⟨e0, he0, hbad0⟩
          rcases List.mem_cons.mp he0 with he0 | he0
          · subst he0
            rcases hbad0 with h0 | ⟨w, hw, hwlen⟩
            · exact absurd h0 (by simp)
            · have hall : ((v :: vs).all fun w => w.length = 128) = false := by
                rw [Bool.eq_false_iff]
                intro hall
                exact hwlen (of_decide_eq_true (List.all_eq_true.mp hall w hw))
              rw [hall]
              exact ⟨_, rfl⟩
          · by_cases hall : ((v :: vs).all fun w => w.length = 128) = true
            · rw [hall]
              obtain ⟨msg, hmsg⟩ :=
                buildPages_bad_not_ok rest imgs (i + 1) ⟨e0, he0, hbad0⟩
              rw [hmsg]
              exact ⟨msg, rfl⟩
            · rw [Bool.eq_false_iff.mpr hall]
              exact ⟨_, rfl⟩

theorem embedDocument_ok_anatomy (st : Store) (d : DocRec) (env : EmbedEnv)
    (st' : Store) (h : embedDocument st d env = .ok st') :
    ∃ imgs objs pgs,
      env.prep = .ok imgs ∧
      (collectBatches ((List.range (chunk3 imgs).length).map env.batch)).1 = .ok objs ∧
      buildPages imgs objs 0 = .ok pgs ∧
      st' = (st.asaveDoc d).setDocPages d pgs := by
  unfold embedDocument at h
  split at h
  · exact absurd h (by simp)
  · next imgs hprep =>
    dsimp only at h
    split at h
    · exact absurd h (by simp)
    · next objs hobjs =>
      split at h
      · exact absurd h (by simp)
      · next pgs hpgs =>
        rw [EmbedResult.ok.injEq] at h
        exact ⟨imgs, objs, pgs, hprep, hobjs, hpgs, h.symm⟩

theorem embedDocument_collections (st : Store) (d : DocRec) (env : EmbedEnv) :
    (embedDocument st d env).store.collections = st.collections := by
  unfold embedDocument
  split
  · rfl
  · dsimp only
    split
    · simp [EmbedResult.store, Store.deleteDoc, Store.asaveDoc]
      split <;> rfl
    · split
      · simp [EmbedResult.store, Store.deleteDoc, Store.asaveDoc]
        split <;> rfl
      · simp [EmbedResult.store, Store.setDocPages, Store.asaveDoc]
        split <;> rfl

/-! ## Claim C4: MaxSim monotonicity -/

/-- C4: MaxSim monotonicity: with a page's raw score defined, for
each query vector, as the maximum similarity over that page's stored
vectors, summed over all query vectors (`maxSimScoreM` over the
similarity matrix), replacing the similarity of one page vector to one
query vector by a larger value — everything else unchanged — never
decreases the page's score. -/
theorem c4_maxsim_monotonicity (sims : List (List ℚ)) (q p : Nat)
    (hq : q < sims.length) (hp : p < sims[q].length) (v : ℚ)
    (hv : sims[q][p] ≤ v) :
    maxSimScoreM sims ≤ maxSimScoreM (sims.set q (sims[q].set p v)) := by
  unfold maxSimScoreM
  rw [List.map_set]
  refine sum_set_ge _ q _ (by simpa using hq) ?_
  rw [List.getElem_map]
  exact rowMax_set_ge _ p v hp hv

/-- Witness for C4 at a concrete input: raising the similarity of page
vector 0 to query vector 0 from 1 to 10 does not decrease the score. -/
theorem c4_maxsim_monotonicity_witness :
    ((1 : ℚ) ≤ 10) ∧
      maxSimScoreM [[(1 : ℚ), 2], [0, 5]] ≤ maxSimScoreM [[(10 : ℚ), 2], [0, 5]] :=
  ⟨by norm_num,
   c4_maxsim_monotonicity [[(1 : ℚ), 2], [0, 5]] 0 0 (by simp) (by simp) 10 (by norm_num)⟩

/-! ## Claim C5: score normalization -/

/-- C5: For every result row returned by the text-search and the
image-search operation, the normalized score equals the raw summed
MaxSim score divided by `Q`, the number of vectors in the query's own
vector set (the same `Q` for every row of one query), and both the raw
and the normalized score are returned in the row. -/
theorem c5_score_normalization (resp : QueryEmbResponse) (pages : List PageRow)
    (topK : Option Int) (out : List PageOutQuery) :
    (search resp pages topK = .results out →
      ∀ row ∈ out, ∃ p ∈ pages,
        row.pageNumber = p.pageNumber ∧
        row.rawScore = maxSimSQL p.vectors (getQueryEmbeddings resp) ∧
        row.normalizedScore = row.rawScore / ((getQueryEmbeddings resp).length : ℚ)) ∧
    (searchImage resp pages topK = .results out →
      ∀ row ∈ out, ∃ p ∈ pages,
        row.pageNumber = p.pageNumber ∧
        row.rawScore = maxSimSQL p.vectors (getImageEmbeddings resp) ∧
        row.normalizedScore = row.rawScore / ((getImageEmbeddings resp).length : ℚ)) :=
  ⟨fun h => (searchCore_results _ pages topK out h).2,
   fun h => (searchCore_results _ pages topK out h).2⟩

/-- Witness for C5 at a concrete input: a two-vector query against two
pages; the first returned row carries raw score 5 and normalized score
5/2. -/
theorem c5_score_normalization_witness :
    ∃ p ∈ ([⟨1, 1, [[2, 0], [0, 3]]⟩, ⟨2, 2, [[1, 1]]⟩] : List PageRow),
      (⟨1, 5, 5 / 2⟩ : PageOutQuery).pageNumber = p.pageNumber ∧
      (⟨1, 5, 5 / 2⟩ : PageOutQuery).rawScore =
        maxSimSQL p.vectors (getQueryEmbeddings ⟨200, [[1, 0], [0, 1]]⟩) ∧
      (⟨1, 5, 5 / 2⟩ : PageOutQuery).normalizedScore =
        (⟨1, 5, 5 / 2⟩ : PageOutQuery).rawScore /
          ((getQueryEmbeddings ⟨200, [[1, 0], [0, 1]]⟩).length : ℚ) :=
  (c5_score_normalization ⟨200, [[1, 0], [0, 1]]⟩
      [⟨1, 1, [[2, 0], [0, 3]]⟩, ⟨2, 2, [[1, 1]]⟩] none
      [⟨1, 5, 5 / 2⟩, ⟨2, 2, 1⟩]).1
    (by norm_num [search, searchCore, getQueryEmbeddings, sliceTopK, maxSimSQL,
      maxSimScoreM, rowMax, dot, List.mergeSort])
    ⟨1, 5, 5 / 2⟩ (by norm_num)

/-! ## Claim C7: search failure semantics -/

/-- C7: If the query-embedding call fails (the embedding service
answers with a non-200 status), both search operations return the
service-unavailable outcome with no ranking; conversely a result list —
empty or not — is only ever returned when the embedding call succeeded
(status 200 and a nonempty query vector set). -/
theorem c7_search_failure_semantics (resp : QueryEmbResponse)
    (pages : List PageRow) (topK : Option Int) (out : List PageOutQuery) :
    (resp.status ≠ 200 →
      search resp pages topK = .serviceUnavailable ∧
      searchImage resp pages topK = .serviceUnavailable) ∧
    (search resp pages topK = .results out →
      resp.status = 200 ∧ getQueryEmbeddings resp ≠ []) ∧
    (searchImage resp pages topK = .results out →
      resp.status = 200 ∧ getImageEmbeddings resp ≠ []) := by
  refine ⟨fun hs => ?_, fun h => ?_, fun h => ?_⟩
  · have hq : getQueryEmbeddings resp = [] := by
      simp [getQueryEmbeddings, hs]
    have hi : getImageEmbeddings resp = [] := by
      simp [getImageEmbeddings, hs]
    constructor
    · simp [search, hq, searchCore]
    · simp [searchImage, hi, searchCore]
  · have hne := (searchCore_results _ pages topK out h).1
    refine ⟨?_, hne⟩
    by_contra hs
    exact hne (by simp [getQueryEmbeddings, hs])
  · have hne := (searchCore_results _ pages topK out h).1
    refine ⟨?_, hne⟩
    by_contra hs
    exact hne (by simp [getImageEmbeddings, hs])

/-- Witness for C7 at concrete inputs: a 500 status yields the
service-unavailable outcome, and a successful search implies the
embedding call succeeded. -/
theorem c7_search_failure_semantics_witness :
    (search ⟨500, [[1]]⟩ [⟨1, 1, [[1]]⟩] none = .serviceUnavailable) ∧
    ((⟨200, [[1, 0], [0, 1]]⟩ : QueryEmbResponse).status = 200 ∧
      getQueryEmbeddings ⟨200, [[1, 0], [0, 1]]⟩ ≠ []) :=
  ⟨((c7_search_failure_semantics ⟨500, [[1]]⟩ [⟨1, 1, [[1]]⟩] none []).1
      (by decide)).1,
   (c7_search_failure_semantics ⟨200, [[1, 0], [0, 1]]⟩
      [⟨1, 1, [[2, 0], [0, 3]]⟩, ⟨2, 2, [[1, 1]]⟩] none
      [⟨1, 5, 5 / 2⟩, ⟨2, 2, 1⟩]).2.1
    (by norm_num [search, searchCore, getQueryEmbeddings, sliceTopK, maxSimSQL,
      maxSimScoreM, rowMax, dot, List.mergeSort])⟩

/-! ## Claim C9: top_k = 0 falls back to the default of 3 -/

/-- C9: In both search operations a requested `top_k` of 0 behaves
exactly like an omitted/null `top_k` (truncation with the default of 3),
so a caller cannot request an empty ranking; for every positive `top_k`
at most `top_k` results are returned. -/
theorem c9_topk_zero_default (resp : QueryEmbResponse) (pages : List PageRow) :
    (search resp pages (some 0) = search resp pages none) ∧
    (searchImage resp pages (some 0) = searchImage resp pages none) ∧
    (∀ k : Int, 0 < k → ∀ out, search resp pages (some k) = .results out →
      out.length ≤ k.toNat) ∧
    (∀ k : Int, 0 < k → ∀ out, searchImage resp pages (some k) = .results out →
      out.length ≤ k.toNat) ∧
    (∀ out, search resp pages (some 0) = .results out → pages ≠ [] → out ≠ []) ∧
    (∀ out, searchImage resp pages (some 0) = .results out → pages ≠ [] → out ≠ []) :=
  ⟨searchCore_topK_zero _ pages,
   searchCore_topK_zero _ pages,
   fun k hk out h => searchCore_topK_bound _ pages k out hk h,
   fun k hk out h => searchCore_topK_bound _ pages k out hk h,
   fun out h hp => searchCore_default_nonempty _ pages out h hp,
   fun out h hp => searchCore_default_nonempty _ pages out h hp⟩

/-- Witness for C9 at concrete inputs: `top_k = 0` equals the default
search, a `top_k` of 1 returns at most one row, and a `top_k` of 0
against a nonempty candidate set yields a nonempty ranking. -/
theorem c9_topk_zero_default_witness :
    (search ⟨200, [[1, 0], [0, 1]]⟩ [⟨1, 1, [[2, 0], [0, 3]]⟩, ⟨2, 2, [[1, 1]]⟩]
        (some 0) =
      search ⟨200, [[1, 0], [0, 1]]⟩ [⟨1, 1, [[2, 0], [0, 3]]⟩, ⟨2, 2, [[1, 1]]⟩]
        none) ∧
    ([(⟨1, 5, 5 / 2⟩ : PageOutQuery)].length ≤ (1 : Int).toNat) ∧
    ([(⟨1, 5, 5 / 2⟩ : PageOutQuery), ⟨2, 2, 1⟩] ≠ []) :=
  ⟨(c9_topk_zero_default ⟨200, [[1, 0], [0, 1]]⟩
      [⟨1, 1, [[2, 0], [0, 3]]⟩, ⟨2, 2, [[1, 1]]⟩]).1,
   (c9_topk_zero_default ⟨200, [[1, 0], [0, 1]]⟩
      [⟨1, 1, [[2, 0], [0, 3]]⟩, ⟨2, 2, [[1, 1]]⟩]).2.2.1 1 (by norm_num)
      [⟨1, 5, 5 / 2⟩]
      (by norm_num [search, searchCore, getQueryEmbeddings, sliceTopK, maxSimSQL,
        maxSimScoreM, rowMax, dot, List.mergeSort]),
   (c9_topk_zero_default ⟨200, [[1, 0], [0, 1]]⟩
      [⟨1, 1, [[2, 0], [0, 3]]⟩, ⟨2, 2, [[1, 1]]⟩]).2.2.2.2.1
      [⟨1, 5, 5 / 2⟩, ⟨2, 2, 1⟩]
      (by norm_num [search, searchCore, getQueryEmbeddings, sliceTopK, maxSimSQL,
        maxSimScoreM, rowMax, dot, List.mergeSort])
      (by simp)⟩

/-! ## Claim C2: page contiguity -/

/-- C2: For every successfully ingested document with `N` pages the
stored page numbers are exactly `1..N`, with no gaps or duplicates: the
orchestrator creates one page per returned vector set, in page-index
order, with `page_number = i + 1` for the `i`-th embedding object across
all batches. -/
theorem c2_page_contiguity (st : Store) (d : DocRec) (env : EmbedEnv)
    (st' : Store) (h : embedDocument st d env = .ok st') :
    ∃ rec, st'.findDoc d.name d.collName d.collOwner = some rec ∧
      rec.pages.map PageRec.pageNumber = List.range' 1 rec.pages.length := by
  obtain ⟨imgs, objs, pgs, _, _, hpgs, hst⟩ :=
    embedDocument_ok_anatomy st d env st' h
  subst hst
  obtain ⟨rec0, hrec0⟩ := findDoc_asaveDoc st d
  rw [findDoc_setDocPages, hrec0]
  exact ⟨{ rec0 with pages := pgs }, rfl,
    by simpa using buildPages_numbers objs imgs 0 pgs hpgs⟩

set_option maxRecDepth 8192 in
/-- Witness for C2 at a concrete input: a four-page document embedded in
two batches (3 + 1) ends up with page numbers exactly `1, 2, 3, 4`. -/
theorem c2_page_contiguity_witness :
    ∃ rec, (Store.findDoc
        ⟨[⟨"C", 0, []⟩],
         [⟨"X", "C", 0, [], "",
           [⟨1, "i1", [List.replicate 128 (1 : ℚ)]⟩,
            ⟨2, "i2", [List.replicate 128 (1 : ℚ)]⟩,
            ⟨3, "i3", [List.replicate 128 (1 : ℚ)]⟩,
            ⟨4, "i4", [List.replicate 128 (1 : ℚ)]⟩]⟩]⟩ "X" "C" 0) = some rec ∧
      rec.pages.map PageRec.pageNumber = List.range' 1 rec.pages.length :=
  c2_page_contiguity ⟨[⟨"C", 0, []⟩], []⟩ ⟨"X", "C", 0, [], "", []⟩
    { prep := .ok ["i1", "i2", "i3", "i4"]
      batch := fun i => if i = 0 then
          ⟨200, some [[List.replicate 128 (1 : ℚ)], [List.replicate 128 (1 : ℚ)],
            [List.replicate 128 (1 : ℚ)]]⟩
        else ⟨200, some [[List.replicate 128 (1 : ℚ)]]⟩ }
    ⟨[⟨"C", 0, []⟩],
     [⟨"X", "C", 0, [], "",
       [⟨1, "i1", [List.replicate 128 (1 : ℚ)]⟩,
        ⟨2, "i2", [List.replicate 128 (1 : ℚ)]⟩,
        ⟨3, "i3", [List.replicate 128 (1 : ℚ)]⟩,
        ⟨4, "i4", [List.replicate 128 (1 : ℚ)]⟩]⟩]⟩ (by decide)

/-! ## Claim C3: embedding-response shape validation -/

/-- C3: Every embedding object the service returns during ingestion
must be a nonempty list of vectors of exactly 128 floats; any shape
mismatch (caught by the assert on the first vector or by the
`halfvec(128)` column on the rest) is a hard failure that rolls the
document back, never a silent coercion — and consequently every stored
vector of a successfully ingested document has length 128. -/
theorem c3_embedding_shape_validation (st : Store) (d : DocRec) (env : EmbedEnv) :
    (∀ st', embedDocument st d env = .ok st' →
      ∀ rec, st'.findDoc d.name d.collName d.collOwner = some rec →
        ∀ pg ∈ rec.pages, ∀ v ∈ pg.vectors, v.length = 128) ∧
    (∀ imgs objs, env.prep = .ok imgs →
      (collectBatches ((List.range (chunk3 imgs).length).map env.batch)).1 = .ok objs →
      (∃ e ∈ objs, e = [] ∨ ∃ v ∈ e, v.length ≠ 128) →
      ∃ stf msg, embedDocument st d env = .err stf msg ∧
        stf.findDoc d.name d.collName d.collOwner = none) := by
  constructor
  · intro st' h rec hrec
    obtain ⟨imgs, objs, pgs, _, _, hpgs, hst⟩ :=
      embedDocument_ok_anatomy st d env st' h
    subst hst
    obtain ⟨rec0, hrec0⟩ := findDoc_asaveDoc st d
    rw [findDoc_setDocPages, hrec0] at hrec
    have hrec2 : rec = { rec0 with pages := pgs } := by
      simpa using hrec.symm
    subst hrec2
    exact buildPages_vectors128 objs imgs 0 pgs hpgs
  · intro imgs objs hprep hobjs hbad
    obtain ⟨msg, hmsg⟩ := buildPages_bad_not_ok objs imgs 0 hbad
    refine ⟨(st.asaveDoc d).deleteDoc d, "Failed to save pages: " ++ msg, ?_,
      findDoc_deleteDoc _ d⟩
    unfold embedDocument
    rw [hprep]
    dsimp only
    rw [hobjs]
    dsimp only
    rw [hmsg]

set_option maxRecDepth 8192 in
/-- Witness for C3 at concrete inputs: the successfully ingested
four-page document stores only 128-float vectors, and a service response
containing a 2-float vector makes ingestion fail with the document
absent from the store. -/
theorem c3_embedding_shape_validation_witness :
    (∀ pg ∈ [(⟨1, "i1", [List.replicate 128 (1 : ℚ)]⟩ : PageRec),
        ⟨2, "i2", [List.replicate 128 (1 : ℚ)]⟩,
        ⟨3, "i3", [List.replicate 128 (1 : ℚ)]⟩,
        ⟨4, "i4", [List.replicate 128 (1 : ℚ)]⟩],
      ∀ v ∈ pg.vectors, v.length = 128) ∧
    (∃ stf msg,
      embedDocument ⟨[⟨"C", 0, []⟩], []⟩ ⟨"X", "C", 0, [], "", []⟩
        { prep := .ok ["i1"], batch := fun _ => ⟨200, some [[[1, 2]]]⟩ } =
          .err stf msg ∧
      stf.findDoc "X" "C" 0 = none) :=
  ⟨(c3_embedding_shape_validation ⟨[⟨"C", 0, []⟩], []⟩ ⟨"X", "C", 0, [], "", []⟩
      { prep := .ok ["i1", "i2", "i3", "i4"]
        batch := fun i => if i = 0 then
            ⟨200, some [[List.replicate 128 (1 : ℚ)], [List.replicate 128 (1 : ℚ)],
              [List.replicate 128 (1 : ℚ)]]⟩
          else ⟨200, some [[List.replicate 128 (1 : ℚ)]]⟩ }).1
    ⟨[⟨"C", 0, []⟩],
     [⟨"X", "C", 0, [], "",
       [⟨1, "i1", [List.replicate 128 (1 : ℚ)]⟩,
        ⟨2, "i2", [List.replicate 128 (1 : ℚ)]⟩,
        ⟨3, "i3", [List.replicate 128 (1 : ℚ)]⟩,
        ⟨4, "i4", [List.replicate 128 (1 : ℚ)]⟩]⟩]⟩ (by decide)
    ⟨"X", "C", 0, [], "",
      [⟨1, "i1", [List.replicate 128 (1 : ℚ)]⟩,
       ⟨2, "i2", [List.replicate 128 (1 : ℚ)]⟩,
       ⟨3, "i3", [List.replicate 128 (1 : ℚ)]⟩,
       ⟨4, "i4", [List.replicate 128 (1 : ℚ)]⟩]⟩ (by decide),
   (c3_embedding_shape_validation ⟨[⟨"C", 0, []⟩], []⟩ ⟨"X", "C", 0, [], "", []⟩
      { prep := .ok ["i1"], batch := fun _ => ⟨200, some [[[1, 2]]]⟩ }).2
    ["i1"] [[[1, 2]]] rfl (by rfl) (by decide)⟩

/-! ## Lemmas for the collection-name invariant -/

theorem collections_clearPages (st : Store) (n c : String) (o : Nat) :
    (st.clearPages n c o).collections = st.collections := rfl

theorem collections_asaveDoc (st : Store) (d : DocRec) :
    (st.asaveDoc d).collections = st.collections := by
  unfold Store.asaveDoc
  split <;> rfl

theorem getOrCreate_noAll (st : Store) (name : String) (owner : Nat)
    (st0 : Store) (h : st.getOrCreateCollection name owner = .ok st0)
    (hno : st.noAll = true) (hname : name ≠ "all") : st0.noAll = true := by
  unfold Store.getOrCreateCollection at h
  split at h
  · rw [Except.ok.injEq] at h
    exact h ▸ hno
  · unfold Store.insertCollection at h
    rw [if_neg hname] at h
    split at h
    · exact absurd h (by simp)
    · rw [Except.ok.injEq] at h
      subst h
      simp only [Store.noAll, List.all_append, List.all_cons, List.all_nil,
        Bool.and_eq_true] at hno ⊢
      exact ⟨hno, by simpa using hname, trivial⟩

theorem upsertMatch_store (r : EmbedResult) :
    (match r with
     | .ok stf => ProcResult.resp 201 stf
     | .err stf _ => ProcResult.resp 400 stf).store = r.store := by
  cases r <;> rfl

theorem processUpsert_noAll (st : Store) (p : DocPayload) (owner : Nat)
    (env : EmbedEnv) (hno : st.noAll = true)
    (hname : p.collectionName ≠ "all") :
    ((processUpsertDocument st p owner env).store).noAll = true := by
  unfold processUpsertDocument
  cases hg : st.getOrCreateCollection p.collectionName owner with
  | error e => exact hno
  | ok st0 =>
    dsimp only
    have hst0 := getOrCreate_noAll st p.collectionName owner st0 hg hno hname
    rw [upsertMatch_store]
    have hcoll : ∀ stx : Store, stx.collections = st0.collections →
        ((embedDocument stx
          { name := p.name, collName := p.collectionName, collOwner := owner,
            metadata := p.metadata, url := p.url.getD "", pages := [] } env).store).noAll
          = true := by
      intro stx hcx
      have h2 := embedDocument_collections stx
        { name := p.name, collName := p.collectionName, collOwner := owner,
          metadata := p.metadata, url := p.url.getD "", pages := [] } env
      simp only [Store.noAll] at hst0 ⊢
      rw [h2, hcx]
      exact hst0
    apply hcoll
    split
    · rw [collections_asaveDoc]
      split <;> rfl
    · split <;> rfl

/-! ## Lemmas for the size limit -/

theorem dotted_ne_empty (a b : String) : a ++ "." ++ b ≠ "" := by
  intro h
  have h2 := congrArg String.length h
  rw [String.length_append, String.length_append] at h2
  have h3 : ("." : String).length = 1 := rfl
  have h4 : ("" : String).length = 0 := rfl
  omega

theorem prepDocument_size_error (inp : PrepInput) (data : Bytes)
    (fn : String) (extOpt : Option String)
    (hres : resolveSource inp = .ok (data, fn, extOpt)) (hfn : fn ≠ "")
    (hlen : data.length > MAX_SIZE_BYTES) :
    prepDocument inp = .error "Document exceeds maximum size of 50MB." := by
  have hne : ¬(data.isEmpty = true) := by
    rw [List.isEmpty_iff]
    intro h
    subst h
    simp [MAX_SIZE_BYTES] at hlen
  unfold prepDocument
  simp only [hres]
  rw [if_neg hne, if_neg hfn, if_pos hlen]

theorem fetchDocument_ok_shape (resp : FetchResponse) (basename : String)
    (hstat : resp.status = 200)
    (hcl : (match resp.contentLength with
            | some cl => decide (cl > MAX_SIZE_BYTES)
            | none => false) = false) :
    ∃ fname, fname ≠ "" ∧
      fetchDocument resp basename =
        .ok (strToLower resp.contentType, fname, resp.body) := by
  unfold fetchDocument
  rw [if_neg (by simp [hstat]), if_neg (by simp [hcl])]
  dsimp only
  by_cases h0 : (match resp.dispositionFilename with
                 | some f => f
                 | none => basename) = ""
  · exact ⟨"downloaded_file", by simp, by rw [if_pos h0]⟩
  · exact ⟨_, h0, by rw [if_neg h0]⟩

theorem resolveSource_noData (inp : PrepInput)
    (hdd : inp.documentData = none ∨ inp.documentData = some []) :
    resolveSource inp = resolveSource.resolveSourceNoData inp := by
  rcases hdd with h | h
  · unfold resolveSource
    simp only [h]
  · unfold resolveSource
    simp only [h, List.isEmpty_nil, if_true]

/-! ## Claim C8: metadata-filter validation -/

/-- C8: A metadata filter passes validation exactly when it
satisfies the shape rules: `key_lookup`/`contains`/`contained_by` need a
single string key and a non-absent scalar value; `has_key` needs a
single string key and no value; `has_keys`/`has_any_keys` need a list of
keys and no value.  Every other key/value/lookup combination is rejected
with a validation error (before any query is issued — the pydantic
validator runs before the view body). -/
theorem c8_filter_validation (key : FilterKey) (value : Option ScalarValue)
    (lookup : Lookup) :
    validateFilter key value lookup = .ok () ↔
      specFilterAccepted key value lookup := by
  cases lookup <;> cases key <;> cases value <;>
    simp [validateFilter, specFilterAccepted, FilterKey.isStr, FilterKey.isList]

/-! ## Claim C10: no collection named "all" -/

/-- C10: No collection named `"all"` can ever exist for any owner:
the upsert view rejects collection name `"all"` with a 400 before any
processing, every store mutation the upsert performs preserves the
absence of an `"all"` collection (the model-level check constraint
`collection_name_not_all` guards every insert), and the
create-collection endpoint preserves it too. -/
theorem c10_no_collection_named_all (st : Store) (p : DocPayload)
    (owner : Nat) (env : EmbedEnv) (name : String)
    (md : List (String × String)) :
    (p.collectionName = "all" → upsertDocument st p owner env = .resp 400 st) ∧
    (st.noAll = true → ((upsertDocument st p owner env).store).noAll = true) ∧
    (st.noAll = true → ((createCollection st name md owner).2).noAll = true) := by
  refine ⟨fun hall => ?_, fun hno => ?_, fun hno => ?_⟩
  · unfold upsertDocument
    rw [if_pos hall]
  · unfold upsertDocument
    by_cases hall : p.collectionName = "all"
    · rw [if_pos hall]
      exact hno
    · rw [if_neg hall]
      exact processUpsert_noAll st p owner env hno hall
  · unfold createCollection
    by_cases hlow : name.toLower = "all"
    · rw [if_pos hlow]
      exact hno
    · rw [if_neg hlow]
      cases hi : st.insertCollection { name := name, owner := owner, metadata := md } with
      | error e => exact hno
      | ok st2 =>
        dsimp only
        unfold Store.insertCollection at hi
        split at hi
        · exact absurd hi (by simp)
        · next hnall =>
          split at hi
          · exact absurd hi (by simp)
          · rw [Except.ok.injEq] at hi
            subst hi
            simp only [Store.noAll, List.all_append, List.all_cons, List.all_nil,
              Bool.and_eq_true] at hno ⊢
            exact ⟨hno, by simpa using hnall, trivial⟩

/-- Witness for C10 at concrete inputs: upserting into collection
`"all"` is rejected with the store untouched, and the empty store keeps
satisfying the invariant through an upsert and a collection creation. -/
theorem c10_no_collection_named_all_witness :
    (upsertDocument ⟨[], []⟩ ⟨"X", [], "all", some "http://e/a.pdf", none⟩ 0
        ⟨.error "prep", fun _ => ⟨200, none⟩⟩ = .resp 400 ⟨[], []⟩) ∧
    ((upsertDocument ⟨[], []⟩ ⟨"X", [], "C", some "http://e/a.pdf", none⟩ 0
        ⟨.error "prep", fun _ => ⟨200, none⟩⟩).store).noAll = true ∧
    ((createCollection ⟨[], []⟩ "C" [] 0).2).noAll = true :=
  ⟨(c10_no_collection_named_all ⟨[], []⟩ ⟨"X", [], "all", some "http://e/a.pdf", none⟩
      0 ⟨.error "prep", fun _ => ⟨200, none⟩⟩ "C" []).1 rfl,
   (c10_no_collection_named_all ⟨[], []⟩ ⟨"X", [], "C", some "http://e/a.pdf", none⟩
      0 ⟨.error "prep", fun _ => ⟨200, none⟩⟩ "C" []).2.1 rfl,
   (c10_no_collection_named_all ⟨[], []⟩ ⟨"X", [], "C", some "http://e/a.pdf", none⟩
      0 ⟨.error "prep", fun _ => ⟨200, none⟩⟩ "C" []).2.2 rfl⟩

/-! ## Claim C1: ingestion atomicity (code bug)

The claim (and the spec, and `embed_document`'s own docstring: "If an
error occurs during processing, the document and all its pages are
deleted") requires that after any failed upsert no document with the
attempted name remains.  The code violates this: `_prep_document` is
awaited *before* the `try` block of `embed_document`, so a
normalization-time failure (e.g. an oversized payload) propagates
without the cleanup delete.  On the update path the pre-existing
document — whose pages `process_upsert_document` has already cleared —
survives with zero pages.
-/

set_option maxRecDepth 8192 in
/-- C1: Evaluation of the code at the failing input: a document
`"X"` with one page exists in collection `"C"`; an update upsert whose
normalization fails (oversized payload) answers 400, yet the document
`"X"` still exists in the store afterwards, now with zero pages — the
claimed all-or-nothing rollback does not happen on this path. -/
theorem c1_atomicity_violated_on_prep_failure :
    upsertDocument
        ⟨[⟨"C", 0, []⟩],
         [⟨"X", "C", 0, [], "", [⟨1, "img", [List.replicate 128 (1 : ℚ)]⟩]⟩]⟩
        ⟨"X", [], "C", some "http://e/a.pdf", none⟩ 0
        ⟨.error "Document exceeds maximum size of 50MB.", fun _ => ⟨200, none⟩⟩ =
      .resp 400 ⟨[⟨"C", 0, []⟩], [⟨"X", "C", 0, [], "", []⟩]⟩ ∧
    Store.hasDoc ⟨[⟨"C", 0, []⟩], [⟨"X", "C", 0, [], "", []⟩]⟩ "X" "C" 0 = true ∧
    (Store.findDoc ⟨[⟨"C", 0, []⟩], [⟨"X", "C", 0, [], "", []⟩]⟩ "X" "C" 0).map
        DocRec.pages = some [] := by
  refine ⟨?_, by decide, by decide⟩
  decide

/-! ## Claim C6: oversized payloads are rejected before embedding

As stated, the claim is false on the webpage branch: when the fetched
content type is HTML, `_prep_document` replaces the fetched body with
the Gotenberg-converted PDF *before* the size check, so an oversized
HTML body whose response declares no `Content-Length` is never
size-checked (see the counterexample below).  The amended claim
restricts the actual-byte-count check to the other source branches.
-/

/-- C6 (amended): every source payload larger than 50 MiB
(52 428 800 bytes) that is supplied directly, read from blob storage, or
fetched from a URL whose response is not an HTML webpage makes
`_prep_document` fail with the size-validation error before any
embedding-service call is made (a prep failure means zero batch calls);
and a URL fetch that declares a `Content-Length` above the limit is
rejected with the same size error before the body is read (the outcome
is the same for every body), while on those branches the actual byte
count is checked again after reading. -/
theorem c6_oversized_rejection (inp : PrepInput) :
    (∀ dd, inp.documentData = some dd → dd.length > MAX_SIZE_BYTES →
      prepDocument inp = .error "Document exceeds maximum size of 50MB.") ∧
    (∀ f content, (inp.documentData = none ∨ inp.documentData = some []) →
      inp.s3 = some (f, content) → f ≠ "" → content.length > MAX_SIZE_BYTES →
      prepDocument inp = .error "Document exceeds maximum size of 50MB.") ∧
    ((inp.documentData = none ∨ inp.documentData = some []) → inp.s3 = none →
      inp.url ≠ "" → inp.fetch.status = 200 →
      strContainsSub (strToLower inp.fetch.contentType) "text/html" = false →
      inp.fetch.body.length > MAX_SIZE_BYTES →
      prepDocument inp = .error "Document exceeds maximum size of 50MB.") ∧
    (∀ (resp : FetchResponse) (basename : String) (cl : Nat),
      resp.status = 200 → resp.contentLength = some cl → cl > MAX_SIZE_BYTES →
      ∀ body, fetchDocument { resp with body := body } basename =
        .error "Document exceeds maximum size of 50MB.") ∧
    (∀ (st : Store) (d : DocRec) (env : EmbedEnv) (e : String),
      env.prep = .error e →
      embedDocument st d env = .err st e ∧ embedCallCount env = 0) := by
  refine ⟨?_, ?_, ?_, ?_, ?_⟩
  · intro dd hdd hlen
    have hne : ¬(dd.isEmpty = true) := by
      rw [List.isEmpty_iff]
      intro h
      subst h
      simp [MAX_SIZE_BYTES] at hlen
    have hres : resolveSource inp = .ok (dd,
        "document." ++ lstripDot (getExtensionFromMime inp.guess (inp.sniffMime dd)),
        some (lstripDot (getExtensionFromMime inp.guess (inp.sniffMime dd)))) := by
      unfold resolveSource
      simp only [hdd]
      rw [if_neg hne]
    refine prepDocument_size_error inp dd _ _ hres ?_ hlen
    intro h
    have h2 := congrArg String.length h
    rw [String.length_append] at h2
    have h3 : ("document." : String).length = 9 := rfl
    have h4 : ("" : String).length = 0 := rfl
    omega
  · intro f content hdd hs3 hf hlen
    have hres : resolveSource inp = .ok (content, f, none) := by
      rw [resolveSource_noData inp hdd]
      unfold resolveSource.resolveSourceNoData
      simp only [hs3]
    exact prepDocument_size_error inp content f none hres hf hlen
  · intro hdd hs3 hurl hstat hhtml hlen
    by_cases hcl : (match inp.fetch.contentLength with
                    | some cl => decide (cl > MAX_SIZE_BYTES)
                    | none => false) = true
    · have hfe : fetchDocument inp.fetch inp.urlBasename =
          .error "Document exceeds maximum size of 50MB." := by
        unfold fetchDocument
        rw [if_neg (by simp [hstat]), if_pos hcl]
      have hres : resolveSource inp =
          .error "Document exceeds maximum size of 50MB." := by
        rw [resolveSource_noData inp hdd]
        unfold resolveSource.resolveSourceNoData
        simp only [hs3]
        rw [if_neg hurl]
        simp only [hfe]
      unfold prepDocument
      simp only [hres]
    · obtain ⟨fname, hfname, hfe⟩ :=
        fetchDocument_ok_shape inp.fetch inp.urlBasename hstat (by simpa using hcl)
      have hres : resolveSource inp = .ok (inp.fetch.body,
          (splitExt fname).1 ++ "." ++
            (if strContainsSub (strToLower inp.fetch.contentType) "application/pdf"
             then "pdf"
             else lstripDot (getExtensionFromMime inp.guess
               (strToLower inp.fetch.contentType))),
          some (if strContainsSub (strToLower inp.fetch.contentType) "application/pdf"
                then "pdf"
                else lstripDot (getExtensionFromMime inp.guess
                  (strToLower inp.fetch.contentType)))) := by
        rw [resolveSource_noData inp hdd]
        unfold resolveSource.resolveSourceNoData
        simp only [hs3]
        rw [if_neg hurl]
        simp only [hfe]
        rw [if_neg (by simp [hhtml])]
      exact prepDocument_size_error inp inp.fetch.body _ _ hres
        (dotted_ne_empty _ _) hlen
  · intro resp basename cl hstat hcl hbig body
    unfold fetchDocument
    rw [if_neg (by simp [hstat])]
    rw [if_pos (by simp [hcl, hbig])]
  · intro st d env e hprep
    constructor
    · unfold embedDocument
      simp only [hprep]
    · unfold embedCallCount
      simp only [hprep]

/-- Witness for C6 at concrete inputs: a 52 428 801-byte payload is
rejected with the size error, a fetch declaring that size is rejected
whatever the body is, and a failed prep makes zero embedding calls. -/
theorem c6_oversized_rejection_witness :
    prepDocument
        ⟨some (List.replicate 52428801 0), none, "", ⟨200, "", none, none, []⟩,
         "", fun _ => "application/pdf", fun _ => none, .error "", .error "",
         fun _ => none, id, fun _ => ""⟩ =
      .error "Document exceeds maximum size of 50MB." ∧
    fetchDocument ⟨200, "ct", none, some 52428801, [42]⟩ "" =
      .error "Document exceeds maximum size of 50MB." ∧
    embedDocument ⟨[], []⟩ ⟨"X", "C", 0, [], "", []⟩
        ⟨.error "boom", fun _ => ⟨200, none⟩⟩ =
      .err ⟨[], []⟩ "boom" ∧
    embedCallCount ⟨.error "boom", fun _ => ⟨200, none⟩⟩ = 0 :=
  ⟨(c6_oversized_rejection
      ⟨some (List.replicate 52428801 0), none, "", ⟨200, "", none, none, []⟩,
       "", fun _ => "application/pdf", fun _ => none, .error "", .error "",
       fun _ => none, id, fun _ => ""⟩).1 (List.replicate 52428801 0) rfl
      (by rw [List.length_replicate]; norm_num [MAX_SIZE_BYTES]),
   (c6_oversized_rejection
      ⟨some (List.replicate 52428801 0), none, "", ⟨200, "", none, none, []⟩,
       "", fun _ => "application/pdf", fun _ => none, .error "", .error "",
       fun _ => none, id, fun _ => ""⟩).2.2.2.1
      ⟨200, "ct", none, some 52428801, []⟩ "" 52428801 rfl rfl
      (by norm_num [MAX_SIZE_BYTES]) [42],
   ((c6_oversized_rejection
      ⟨some (List.replicate 52428801 0), none, "", ⟨200, "", none, none, []⟩,
       "", fun _ => "application/pdf", fun _ => none, .error "", .error "",
       fun _ => none, id, fun _ => ""⟩).2.2.2.2
      ⟨[], []⟩ ⟨"X", "C", 0, [], "", []⟩
      ⟨.error "boom", fun _ => ⟨200, none⟩⟩ "boom" rfl).1,
   ((c6_oversized_rejection
      ⟨some (List.replicate 52428801 0), none, "", ⟨200, "", none, none, []⟩,
       "", fun _ => "application/pdf", fun _ => none, .error "", .error "",
       fun _ => none, id, fun _ => ""⟩).2.2.2.2
      ⟨[], []⟩ ⟨"X", "C", 0, [], "", []⟩
      ⟨.error "boom", fun _ => ⟨200, none⟩⟩ "boom" rfl).2⟩

set_option maxRecDepth 8192 in
/-- Counterexample refuting C6 as stated: a 52 428 801-byte source
payload fetched from a URL whose response is an HTML webpage with no
declared `Content-Length` is never size-checked — `_prep_document`
replaces the body with the converted PDF before the size check, so
normalization succeeds and the embedding service is called. -/
theorem c6_oversized_rejection_counterexample :
    (List.replicate 52428801 0 : Bytes).length > MAX_SIZE_BYTES ∧
    prepDocument
        ⟨none, none, "http://e/page",
         ⟨200, "text/html", none, none, List.replicate 52428801 0⟩, "page",
         fun _ => "", fun _ => none, .ok [1, 2, 3], .error "",
         fun _ => some [[7]], id, fun _ => "IMG"⟩ = .ok ["IMG"] ∧
    embedCallCount
        ⟨prepDocument
          ⟨none, none, "http://e/page",
           ⟨200, "text/html", none, none, List.replicate 52428801 0⟩, "page",
           fun _ => "", fun _ => none, .ok [1, 2, 3], .error "",
           fun _ => some [[7]], id, fun _ => "IMG"⟩,
         fun _ => ⟨200, some [[List.replicate 128 (0 : ℚ)]]⟩⟩ = 1 :=
  ⟨by rw [List.length_replicate]; norm_num [MAX_SIZE_BYTES], by rfl, by rfl⟩

end ColiVara
